import Mathlib

/-!
Verification of the aggregation and filtering pipeline of the social-media
sentiment dashboard (media.py).

The dashboard is a straight-line pandas script over a table of posts.  We
embed it shallowly:

* a Python string is a list of Unicode code points (`PyStr := List Nat`);
* a row of the CSV is a `Post` record; missing cells (pandas NaN) are `none`;
* the DataFrame is a `List Post` in file order;
* each pandas expression of the script becomes a Lean function of the
  relation (and of the widget selections it reads), keeping the source's
  variable names where Lean allows it.

pandas key-order conventions (groupby sorts its keys, `unique` keeps first
occurrence) only affect the ordering of result rows, never their contents;
where a stated property is order-insensitive we enumerate keys with
`List.dedup` and note the fact.  Where order does matter (unstack's sorted
columns, value_counts' descending sort, idxmax's first-maximum rule) the
embedding reproduces it exactly.
-/

/-- Python string, as its list of Unicode code points. -/
abbrev PyStr := List Nat

/-- Code points of a Lean string literal, for writing concrete fixtures. -/
def pystr (s : String) : PyStr := s.data.map Char.toNat

/-- Python `str.lower` on one code point (ASCII range, the only range the
dataset's categorical fields use). -/
def lowerCode (n : Nat) : Nat := if 65 ≤ n ∧ n ≤ 90 then n + 32 else n

/-- Python `str.upper` on one code point (ASCII range). -/
def upperCode (n : Nat) : Nat := if 97 ≤ n ∧ n ≤ 122 then n - 32 else n

/-- ASCII alphabetic (cased) code point. -/
def isAlphaCode (n : Nat) : Bool := (65 ≤ n && n ≤ 90) || (97 ≤ n && n ≤ 122)

/-- Python whitespace (ASCII range): space, tab, LF, VT, FF, CR. -/
def isWsCode (n : Nat) : Bool :=
  n == 32 || n == 9 || n == 10 || n == 11 || n == 12 || n == 13

/-- Python `str.lower` over a whole string. -/
def pyLower (s : PyStr) : PyStr := s.map lowerCode

/-- Python `str.title`, character by character: a cased character is
uppercased when the previous character was not cased, lowercased otherwise
(the Boolean argument records whether the previous character was cased). -/
def titleMap : Bool → PyStr → PyStr
  | _, [] => []
  | prev, c :: cs =>
    (if isAlphaCode c then (if prev then lowerCode c else upperCode c) else c)
      :: titleMap (isAlphaCode c) cs

/-- Python `str.title` (used by `df["Platform"].str.title()`, media.py:16). -/
def pyTitle (s : PyStr) : PyStr := titleMap false s

/-- Python `str.split()` with no separator: maximal runs of non-whitespace.
The accumulator holds the characters of the current word, reversed. -/
def pySplitAux : PyStr → PyStr → List PyStr
  | acc, [] => if acc = [] then [] else [acc.reverse]
  | acc, c :: cs =>
    if isWsCode c then
      (if acc = [] then pySplitAux [] cs else acc.reverse :: pySplitAux [] cs)
    else
      pySplitAux (c :: acc) cs

/-- Python `text.split()` (media.py:248). -/
def pySplit (s : PyStr) : List PyStr := pySplitAux [] s

/-- Python `' '.join(words)` (media.py:248, 252). -/
def joinSp : List PyStr → PyStr
  | [] => []
  | [w] => w
  | w :: ws => w ++ 32 :: joinSp ws

/-- Python `str(cell)` on a possibly-missing cell: `str` of a pandas NaN is
the three-character string "nan". -/
def pyStrOfCell : Option PyStr → PyStr
  | some s => s
  | none => pystr "nan"

/-- One row of sentimentdataset.csv, with the columns the script reads.
Missing cells of the nullable columns are `none`. -/
structure Post where
  platform : PyStr
  country : Option PyStr
  year : Int
  month : PyStr
  day : Int
  sentiment : PyStr
  likes : Int
  text : Option PyStr
  user : PyStr
deriving DecidableEq

/-- media.py:14-17, `load_data`: read the table and title-case the Platform
column.  The raw rows stand for the parsed CSV. -/
def load_data (raw : List Post) : List Post :=
  raw.map (fun r => { r with platform := pyTitle r.platform })

/-- Rows of one platform group (`df.groupby("Platform")` membership). -/
def platformGroup (df : List Post) (p : PyStr) : List Post :=
  df.filter (fun r => r.platform = p)

/-- pandas `idxmax` over the Likes of a row list: the first row holding the
maximal value, `none` on an empty list. -/
def idxmaxLikes : List Post → Option Post
  | [] => none
  | r :: rs =>
    match idxmaxLikes rs with
    | none => some r
    | some m => if r.likes < m.likes then some m else some r

/-- media.py:25, `most_liked_by_platform`: the row of
`df.loc[df.groupby("Platform")["Likes"].idxmax()]` for platform p, as a
lookup (`none` when the platform has no rows, hence no group). -/
def most_liked_by_platform (df : List Post) (p : PyStr) : Option Post :=
  idxmaxLikes (platformGroup df p)

/-- What the sidebar renders for the selected platform (media.py:36-46). -/
inductive SidebarView where
  | topPost (likes : Int) (text : Option PyStr) (user : PyStr)
  | noPostsFound
deriving DecidableEq

/-- media.py:36-46: `platform_post` is the `most_liked_by_platform` table
restricted to the selected platform; a non-empty result renders the post,
an empty one renders the "No posts found" warning. -/
def sidebar_view (df : List Post) (sel : PyStr) : SidebarView :=
  match most_liked_by_platform df sel with
  | some post => .topPost post.likes post.text post.user
  | none => .noPostsFound

/-- media.py:50, first assignment to `filtered_df`: rows of the selected
country (null countries never equal a selected value). -/
def country_filtered (df : List Post) (c : PyStr) : List Post :=
  df.filter (fun r => r.country = some c)

/-- media.py:57, second assignment to `filtered_df`: it rebuilds the table
from `df` with the Year/Month/Day conjunction only, overwriting (not
refining) the line-50 country filter. -/
def filtered_df (df : List Post) (y : Int) (m : PyStr) (d : Int) : List Post :=
  df.filter (fun r => r.year = y ∧ r.month = m ∧ r.day = d)

/-- The filter the spec describes: the conjunction of all selected
predicates (country and year/month/day together).  Written from the spec's
words, to compare with what the script computes. -/
def conjFiltered (df : List Post) (c : PyStr) (y : Int) (m : PyStr) (d : Int) :
    List Post :=
  df.filter (fun r => r.country = some c ∧ r.year = y ∧ r.month = m ∧ r.day = d)

/-- Count of df rows carrying a given sentiment label
(one entry of `df["Sentiment"].value_counts()`). -/
def sentimentCount (df : List Post) (s : PyStr) : Nat :=
  (df.filter (fun r => r.sentiment = s)).length

/-- Distinct sentiment labels of the relation (the index set of
`value_counts`; enumeration order immaterial, the list is sorted next). -/
def sentimentValues (df : List Post) : List PyStr :=
  (df.map (fun r => r.sentiment)).dedup

/-- Descending-by-count order on (label, count) pairs. -/
def cntGe (a b : PyStr × Nat) : Prop := b.2 ≤ a.2

instance : DecidableRel cntGe := fun a b => Nat.decLe b.2 a.2

instance : IsTotal (PyStr × Nat) cntGe := ⟨fun a b => (Nat.le_total a.2 b.2).symm⟩

instance : IsTrans (PyStr × Nat) cntGe := ⟨fun _ _ _ h1 h2 => Nat.le_trans h2 h1⟩

/-- media.py:63, `df["Sentiment"].value_counts()`: the distinct labels with
their counts, sorted by count descending. -/
def value_counts (df : List Post) : List (PyStr × Nat) :=
  ((sentimentValues df).map (fun s => (s, sentimentCount df s))).insertionSort cntGe

/-- media.py:63, `top_10_sentiments`: the index of `nlargest(10)` on the
value counts, i.e. the labels of the first ten entries of the descending
sort. -/
def top_10_sentiments (df : List Post) : List PyStr :=
  ((value_counts df).take 10).map Prod.fst

/-- media.py:64, `sentiment_filtered_df`: rows whose sentiment is one of the
top-10 labels. -/
def sentiment_filtered_df (df : List Post) : List Post :=
  df.filter (fun r => r.sentiment ∈ top_10_sentiments df)

/-- Distinct platform labels of the relation (groupby key set; enumeration
order immaterial to the stated properties). -/
def platformValues (df : List Post) : List PyStr :=
  (df.map (fun r => r.platform)).dedup

/-- Arithmetic mean of the Likes column of a row list, as a rational. -/
def meanLikes (rows : List Post) : ℚ :=
  (((rows.map (fun r => r.likes)).sum : ℤ) : ℚ) / ((rows.length : ℕ) : ℚ)

/-- media.py:91, `platform_likes = df.groupby("Platform")["Likes"].mean()`:
one (platform, mean likes) pair per observed platform. -/
def platform_likes (df : List Post) : List (PyStr × ℚ) :=
  (platformValues df).map (fun p => (p, meanLikes (platformGroup df p)))

/-- media.py:104, `sentiment_likes`: mean likes per sentiment over the
top-10-filtered relation. -/
def sentiment_likes (df : List Post) : List (PyStr × ℚ) :=
  ((sentiment_filtered_df df).map (fun r => r.sentiment)).dedup.map
    (fun s => (s, meanLikes ((sentiment_filtered_df df).filter
      (fun r => r.sentiment = s))))

/-- Count of rows with a given (platform, sentiment) pair. -/
def pairGroupCount (df : List Post) (p s : PyStr) : Nat :=
  (df.filter (fun r => r.platform = p ∧ r.sentiment = s)).length

/-- Observed (platform, sentiment) pairs, the groups of
`pivot_table(index="Platform", columns="Sentiment", aggfunc="size")`. -/
def observedPairs (df : List Post) : List (PyStr × PyStr) :=
  (df.map (fun r => (r.platform, r.sentiment))).dedup

/-- The group sizes the pivot table is built from. -/
def pairCounts (df : List Post) : List ((PyStr × PyStr) × Nat) :=
  (observedPairs df).map (fun k =>
    (k, (df.filter (fun r => (r.platform, r.sentiment) = k)).length))

/-- Association-list access, pandas label-based lookup. -/
def tableGet? {κ β : Type} [DecidableEq κ] : List (κ × β) → κ → Option β
  | [], _ => none
  | (a, b) :: rest, k => if k = a then some b else tableGet? rest k

/-- media.py:118, `sentiment_platform_counts`: one cell of the pivot table —
the size of the (platform, sentiment) group, with `fill_value=0` supplying 0
for cross-product cells whose group does not exist. -/
def sentiment_platform_counts (df : List Post) (p s : PyStr) : Nat :=
  (tableGet? (pairCounts df) (p, s)).getD 0

/-- Lexicographic order on code-point strings (pandas sorts unstacked column
labels). -/
def strLeB : PyStr → PyStr → Bool
  | [], _ => true
  | _ :: _, [] => false
  | a :: as, b :: bs => if a < b then true else if b < a then false else strLeB as bs

/-- media.py:125: `groupby(['Country','Sentiment'])` drops rows whose
Country is NaN; these are the rows that feed the country matrix. -/
def countryRows (df : List Post) : List Post :=
  df.filter (fun r => r.country ≠ none)

/-- Sentiment column labels of the unstacked country matrix: the distinct
sentiments of the non-null-country rows, in sorted column order. -/
def csSentCols (df : List Post) : List PyStr :=
  (((countryRows df).map (fun r => r.sentiment)).dedup).insertionSort
    (fun a b => strLeB a b = true)

/-- media.py:125: one cell of `country_sentiment` before the derived
columns — the number of posts of country c with sentiment s. -/
def csCell (df : List Post) (c s : PyStr) : Nat :=
  (df.filter (fun r => r.country = some c ∧ r.sentiment = s)).length

/-- media.py:126, `country_sentiment['Total_Posts']`: the row sum over the
sentiment columns present at that point. -/
def total_posts (df : List Post) (c : PyStr) : Nat :=
  ((csSentCols df).map (fun s => csCell df c s)).sum

/-- pandas `idxmax(axis=1)` over one row, given as (column label, value)
pairs in column order: the first label holding the maximal value. -/
def firstArgmaxAux : PyStr → Nat → List (PyStr × Nat) → PyStr
  | k, _, [] => k
  | k, v, (k2, v2) :: rest =>
    if v < v2 then firstArgmaxAux k2 v2 rest else firstArgmaxAux k v rest

/-- pandas `idxmax(axis=1)` over one row of labelled values. -/
def firstArgmax : List (PyStr × Nat) → Option PyStr
  | [] => none
  | (k, v) :: rest => some (firstArgmaxAux k v rest)

/-- media.py:127, `country_sentiment['Dominant_Sentiment']`: `idxmax(axis=1)`
over the columns present on line 127 — the sentiment columns AND the
Total_Posts column appended on line 126. -/
def dominant_sentiment (df : List Post) (c : PyStr) : Option PyStr :=
  firstArgmax (((csSentCols df).map (fun s => (s, csCell df c s)))
    ++ [(pystr "Total_Posts", total_posts df c)])

/-- What the spec says Dominant_Sentiment is: the argmax over the sentiment
count columns only (tie-break first column in column order).  Written from
the spec's words, to compare with `dominant_sentiment` above. -/
def dominant_sentiment_claimed (df : List Post) (c : PyStr) : Option PyStr :=
  firstArgmax ((csSentCols df).map (fun s => (s, csCell df c s)))

/-- media.py:246-249, `preprocess_text`: `str(text).lower()`, split on
whitespace, keep words longer than 3, re-join with single spaces. -/
def preprocess_text (text : Option PyStr) : PyStr :=
  joinSp ((pySplit (pyLower (pyStrOfCell text))).filter (fun w => 3 < w.length))

/-- media.py:252, `all_text`: the preprocessed texts of all rows joined with
single spaces — the string handed to the word-frequency view. -/
def all_text (df : List Post) : PyStr :=
  joinSp (df.map (fun r => preprocess_text r.text))

/-- Maximum of the Likes column of a row list (`none` when empty); the
reference value the spec compares the top-post table against. -/
def maxLikes? : List Post → Option Int
  | [] => none
  | r :: rs =>
    some (match maxLikes? rs with
      | none => r.likes
      | some m => max r.likes m)

/-- Fixture row builder: a post with the given sentiment-related fields,
defaults elsewhere. -/
def fxPost (pl : String) (co : Option String) (y : Int) (mo : String) (d : Int)
    (se : String) (li : Int) : Post :=
  { platform := pystr pl, country := co.map pystr, year := y, month := pystr mo,
    day := d, sentiment := pystr se, likes := li,
    text := some (pystr "hello world"), user := pystr "u" }

/-- Fixture for the dominant-sentiment check: one country with two posts of
two different sentiments. -/
def dfDom : List Post :=
  [fxPost "X" (some "US") 2023 "Jan" 1 "Joy" 10,
   fxPost "X" (some "US") 2023 "Jan" 2 "Anger" 5]

/-- Fixture for the filter-composition check: the country filter would keep
only the first row, the date filter keeps only the second. -/
def dfFlt : List Post :=
  [fxPost "Twitter" (some "US") 2020 "Jan" 1 "Joy" 10,
   fxPost "Facebook" (some "UK") 2023 "Jan" 1 "Anger" 4]

/-- Fixture with eleven distinct sentiment labels (Joy twice, ten singletons),
so that the top-10 restriction actually excludes one. -/
def dfTop : List Post :=
  [fxPost "X" (some "US") 2023 "Jan" 1 "Joy" 1,
   fxPost "X" (some "US") 2023 "Jan" 1 "Joy" 2,
   fxPost "X" (some "US") 2023 "Jan" 1 "S01" 1,
   fxPost "X" (some "US") 2023 "Jan" 1 "S02" 1,
   fxPost "X" (some "US") 2023 "Jan" 1 "S03" 1,
   fxPost "X" (some "US") 2023 "Jan" 1 "S04" 1,
   fxPost "X" (some "US") 2023 "Jan" 1 "S05" 1,
   fxPost "X" (some "US") 2023 "Jan" 1 "S06" 1,
   fxPost "X" (some "US") 2023 "Jan" 1 "S07" 1,
   fxPost "X" (some "US") 2023 "Jan" 1 "S08" 1,
   fxPost "X" (some "US") 2023 "Jan" 1 "S09" 1,
   fxPost "X" (some "US") 2023 "Jan" 1 "S10" 1]

/-- Fixture post whose text cell is missing (pandas NaN). -/
def nullTextPost : Post :=
  { platform := pystr "X", country := none, year := 2023, month := pystr "Jan",
    day := 1, sentiment := pystr "Joy", likes := 0, text := none,
    user := pystr "u" }


/-! ## Helper lemmas -/

theorem tableGet?_map_self {κ β : Type} [DecidableEq κ] (f : κ → β)
    (keys : List κ) (k : κ) :
    tableGet? (keys.map (fun x => (x, f x))) k =
      if k ∈ keys then some (f k) else none := by
  induction keys with
  | nil => rfl
  | cons a as ih =>
    simp only [List.map_cons, tableGet?]
    by_cases h : k = a
    · subst h; simp
    · simp [h, ih, List.mem_cons]

theorem mem_platformValues_iff (df : List Post) (p : PyStr) :
    p ∈ platformValues df ↔ platformGroup df p ≠ [] := by
  unfold platformValues platformGroup
  rw [List.mem_dedup, Ne, List.filter_eq_nil_iff]
  push_neg
  simp [List.mem_map]

theorem idxmaxLikes_map_likes (l : List Post) :
    (idxmaxLikes l).map (fun r => r.likes) = maxLikes? l := by
  induction l with
  | nil => rfl
  | cons r rs ih =>
    simp only [idxmaxLikes, maxLikes?]
    cases h : idxmaxLikes rs with
    | none =>
      rw [h] at ih
      rw [← ih]
      rfl
    | some m =>
      rw [h] at ih
      rw [← ih]
      by_cases hlt : r.likes < m.likes
      · simp [hlt, max_eq_right (le_of_lt hlt)]
      · simp [hlt, max_eq_left (le_of_not_lt hlt)]

/-! ## Claim theorems, first group -/

/-- C3: for every platform, the likes of the top-post entry equal the
maximum of likes over the posts of that platform (both sides are `none`
exactly when the platform has no rows). -/
theorem most_liked_by_platform_likes (df : List Post) (p : PyStr) :
    (most_liked_by_platform df p).map (fun r => r.likes) =
      maxLikes? (platformGroup df p) :=
  idxmaxLikes_map_likes (platformGroup df p)

/-- C9: when the selected platform group has no rows, the sidebar yields the
explicit no-data result. -/
theorem sidebar_view_no_data (df : List Post) (sel : PyStr)
    (h : platformGroup df sel = []) :
    sidebar_view df sel = SidebarView.noPostsFound := by
  unfold sidebar_view most_liked_by_platform
  rw [h]
  rfl

/-- Witness for C9 at a concrete input. -/
theorem sidebar_view_no_data_witness :
    sidebar_view [] (pystr "Twitter") = SidebarView.noPostsFound :=
  sidebar_view_no_data [] (pystr "Twitter") rfl

/-- C6: the per-platform average-likes table maps every platform with a
non-empty group to the arithmetic mean of its likes, and holds no key whose
group is empty. -/
theorem platform_likes_mean (df : List Post) (p : PyStr) :
    tableGet? (platform_likes df) p =
      if platformGroup df p = [] then none
      else some (meanLikes (platformGroup df p)) := by
  unfold platform_likes
  rw [tableGet?_map_self]
  simp only [mem_platformValues_iff]
  by_cases h : platformGroup df p = [] <;> simp [h]

/-- C2 counterexample: on dfFlt with country "US" and date 2023/Jan/1
selected, the script's final filtered relation is not the conjunction of all
selected predicates (the country filter is overwritten), and the
per-platform likes table is not built from the conjunctively filtered rows. -/
theorem filters_conjoined_cex :
    filtered_df dfFlt 2023 (pystr "Jan") 1 ≠
        conjFiltered dfFlt (pystr "US") 2023 (pystr "Jan") 1 ∧
      platform_likes dfFlt ≠
        platform_likes (conjFiltered dfFlt (pystr "US") 2023 (pystr "Jan") 1) := by
  constructor
  · decide
  · have hconj : conjFiltered dfFlt (pystr "US") 2023 (pystr "Jan") 1 = [] := by
      decide
    rw [hconj]
    intro hc
    have h2 : (platform_likes dfFlt).length = 2 := by
      unfold platform_likes
      rw [List.length_map]
      decide
    rw [hc] at h2
    have h0 : (platform_likes ([] : List Post)).length = 0 := rfl
    omega

/-- C2 amended: each of the two filter assignments selects exactly the rows
satisfying its own predicate conjunction — line 50 the country equality,
line 57 the year-month-day conjunction (which overwrites the former, so the
country selection does not constrain the final filtered relation). -/
theorem filter_membership (df : List Post) (c : PyStr) (y : Int) (m : PyStr)
    (d : Int) (r : Post) :
    (r ∈ country_filtered df c ↔ r ∈ df ∧ r.country = some c) ∧
      (r ∈ filtered_df df y m d ↔
        r ∈ df ∧ (r.year = y ∧ r.month = m ∧ r.day = d)) := by
  constructor <;> simp [country_filtered, filtered_df, List.mem_filter]

/-- C7: after loading, two rows whose platforms are the case variants
"twitter" and "Twitter" form the single group "Twitter" of size 2. -/
theorem load_data_case_folding (r1 r2 : Post)
    (h1 : r1.platform = pystr "twitter") (h2 : r2.platform = pystr "Twitter") :
    platformValues (load_data [r1, r2]) = [pystr "Twitter"] ∧
      (platformGroup (load_data [r1, r2]) (pystr "Twitter")).length = 2 := by
  have ht : pyTitle (pystr "twitter") = pystr "Twitter" := by decide
  have ht2 : pyTitle (pystr "Twitter") = pystr "Twitter" := by decide
  constructor
  · have hm : (load_data [r1, r2]).map (fun r => r.platform) =
        [pystr "Twitter", pystr "Twitter"] := by
      simp [load_data, h1, h2, ht, ht2]
    unfold platformValues
    rw [hm]
    decide
  · unfold platformGroup load_data
    simp [h1, h2, ht, ht2]

/-- Witness for C7 at concrete rows. -/
theorem load_data_case_folding_witness :
    platformValues (load_data [fxPost "twitter" (some "US") 2023 "Jan" 1 "Joy" 1,
        fxPost "Twitter" (some "US") 2023 "Jan" 1 "Joy" 2]) = [pystr "Twitter"] ∧
      (platformGroup (load_data [fxPost "twitter" (some "US") 2023 "Jan" 1 "Joy" 1,
        fxPost "Twitter" (some "US") 2023 "Jan" 1 "Joy" 2]) (pystr "Twitter")).length = 2 :=
  load_data_case_folding _ _ rfl rfl

/-! ## Counting machinery shared by the top-10 and pivot claims -/

theorem length_filter_or_disj {α : Type} (l : List α) (p q : α → Bool)
    (h : ∀ a ∈ l, ¬(p a = true ∧ q a = true)) :
    (l.filter (fun a => p a || q a)).length =
      (l.filter p).length + (l.filter q).length := by
  induction l with
  | nil => rfl
  | cons a as ih =>
    have ha := h a (List.mem_cons_self a as)
    have ih' := ih (fun b hb => h b (List.mem_cons_of_mem a hb))
    cases hp : p a <;> cases hq : q a
    · simp [List.filter_cons, hp, hq, ih']
    · simp [List.filter_cons, hp, hq, ih']
      omega
    · simp [List.filter_cons, hp, hq, ih']
      omega
    · exact absurd ⟨hp, hq⟩ ha

theorem sum_length_filter_key {α κ : Type} [DecidableEq κ] (l : List α)
    (key : α → κ) (ks : List κ) (hnd : ks.Nodup) :
    (ks.map (fun k => (l.filter (fun r => key r = k)).length)).sum =
      (l.filter (fun r => key r ∈ ks)).length := by
  induction ks with
  | nil => simp
  | cons k ks ih =>
    rcases List.nodup_cons.mp hnd with ⟨hk, hnd'⟩
    have hdisj : ∀ a ∈ l,
        ¬(decide (key a = k) = true ∧ decide (key a ∈ ks) = true) := by
      intro a _ hand
      rcases hand with ⟨hx, hy⟩
      rw [decide_eq_true_eq] at hx hy
      exact hk (hx ▸ hy)
    have hsplit := length_filter_or_disj l (fun a => decide (key a = k))
      (fun a => decide (key a ∈ ks)) hdisj
    have hcong : l.filter (fun a => decide (key a = k) || decide (key a ∈ ks)) =
        l.filter (fun a => key a ∈ k :: ks) := by
      apply List.filter_congr
      intro a _
      by_cases hx : key a = k <;> by_cases hy : key a ∈ ks <;>
        simp [List.mem_cons, hx, hy]
    simp only [List.map_cons, List.sum_cons, ih hnd']
    rw [← hcong, hsplit]

theorem sum_length_filter_key_total {α κ : Type} [DecidableEq κ] (l : List α)
    (key : α → κ) (ks : List κ) (hnd : ks.Nodup) (hcov : ∀ a ∈ l, key a ∈ ks) :
    (ks.map (fun k => (l.filter (fun r => key r = k)).length)).sum = l.length := by
  rw [sum_length_filter_key l key ks hnd]
  congr 1
  rw [List.filter_eq_self]
  intro a ha
  simp [hcov a ha]

/-! ## value_counts and the top-10 restriction -/

theorem value_counts_perm (df : List Post) :
    List.Perm (value_counts df)
      ((sentimentValues df).map (fun s => (s, sentimentCount df s))) :=
  List.perm_insertionSort cntGe _

theorem value_counts_sorted (df : List Post) :
    List.Pairwise cntGe (value_counts df) :=
  List.sorted_insertionSort cntGe _

theorem mem_value_counts (df : List Post) (pr : PyStr × Nat) :
    pr ∈ value_counts df ↔
      ∃ s, s ∈ sentimentValues df ∧ pr = (s, sentimentCount df s) := by
  constructor
  · intro h
    rcases List.mem_map.mp ((value_counts_perm df).mem_iff.mp h) with ⟨a, ha, hae⟩
    exact ⟨a, ha, hae.symm⟩
  · rintro ⟨a, ha, rfl⟩
    exact (value_counts_perm df).mem_iff.mpr (List.mem_map.mpr ⟨a, ha, rfl⟩)

theorem map_fst_value_counts_perm (df : List Post) :
    List.Perm ((value_counts df).map Prod.fst) (sentimentValues df) := by
  have h := (value_counts_perm df).map Prod.fst
  simpa [Function.comp_def] using h

theorem top_10_nodup (df : List Post) : (top_10_sentiments df).Nodup := by
  have h1 : ((value_counts df).map Prod.fst).Nodup :=
    ((map_fst_value_counts_perm df).nodup_iff).mpr (List.nodup_dedup _)
  unfold top_10_sentiments
  rw [List.map_take]
  exact h1.sublist (List.take_sublist 10 _)

theorem top_10_subset (df : List Post) :
    ∀ s ∈ top_10_sentiments df, s ∈ sentimentValues df := by
  intro s hs
  unfold top_10_sentiments at hs
  rcases List.mem_map.mp hs with ⟨pr, hprTake, hfst⟩
  have hvc : pr ∈ value_counts df := (List.take_sublist 10 _).subset hprTake
  rcases (mem_value_counts df pr).mp hvc with ⟨t, ht, hpr2⟩
  subst hpr2
  simp only at hfst
  exact hfst ▸ ht

theorem top_10_length (df : List Post) :
    (top_10_sentiments df).length = min 10 (sentimentValues df).length := by
  unfold top_10_sentiments
  rw [List.length_map, List.length_take, (value_counts_perm df).length_eq,
    List.length_map]

theorem top_10_high_freq (df : List Post) :
    ∀ s ∈ top_10_sentiments df, ∀ t ∈ sentimentValues df,
      t ∉ top_10_sentiments df → sentimentCount df t ≤ sentimentCount df s := by
  intro s hs t ht hnt
  rcases List.mem_map.mp hs with ⟨pr, hprTake, hfst⟩
  have hvc : pr ∈ value_counts df := (List.take_sublist 10 _).subset hprTake
  rcases (mem_value_counts df pr).mp hvc with ⟨u, _, hpr2⟩
  subst hpr2
  simp only at hfst
  subst hfst
  have htvc : (t, sentimentCount df t) ∈ value_counts df :=
    (mem_value_counts df _).mpr ⟨t, ht, rfl⟩
  have htsplit : (t, sentimentCount df t) ∈
      (value_counts df).take 10 ++ (value_counts df).drop 10 := by
    rw [List.take_append_drop]
    exact htvc
  have htdrop : (t, sentimentCount df t) ∈ (value_counts df).drop 10 := by
    rcases List.mem_append.mp htsplit with h | h
    · exact absurd (List.mem_map.mpr ⟨_, h, rfl⟩) hnt
    · exact h
  have hpw : List.Pairwise cntGe
      ((value_counts df).take 10 ++ (value_counts df).drop 10) := by
    rw [List.take_append_drop]
    exact value_counts_sorted df
  exact (List.pairwise_append.mp hpw).2.2 _ hprTake _ htdrop

theorem mem_sentiment_likes_keys (df : List Post) (s : PyStr) :
    s ∈ (sentiment_likes df).map Prod.fst ↔ s ∈ top_10_sentiments df := by
  unfold sentiment_likes
  rw [List.map_map]
  simp only [Function.comp_def, List.map_id, List.map_id']
  constructor
  · intro h
    rw [List.mem_dedup] at h
    rcases List.mem_map.mp h with ⟨r, hr, hrs⟩
    have hmem := List.mem_filter.mp hr
    have hcond := hmem.2
    rw [decide_eq_true_eq] at hcond
    exact hrs ▸ hcond
  · intro h
    have hsv := top_10_subset df s h
    unfold sentimentValues at hsv
    rw [List.mem_dedup] at hsv
    rcases List.mem_map.mp hsv with ⟨r, hr, hrs⟩
    rw [List.mem_dedup]
    apply List.mem_map.mpr
    refine ⟨r, ?_, hrs⟩
    apply List.mem_filter.mpr
    exact ⟨hr, by simp [hrs, h]⟩

/-- C4: the top-10 restriction keeps at most ten labels — exactly the
min(10, number of distinct labels) distinct labels, every kept label is an
observed one, every dropped label's frequency is at most every kept label's
frequency, the kept labels' counts sum to at most the row count, and the
subsequent sentiment aggregates (the filtered relation and the
mean-likes-per-sentiment table) range over exactly this label set. -/
theorem top_10_sentiments_spec (df : List Post) :
    (top_10_sentiments df).length ≤ 10 ∧
      (top_10_sentiments df).length = min 10 (sentimentValues df).length ∧
      (top_10_sentiments df).Nodup ∧
      (∀ s ∈ top_10_sentiments df, s ∈ sentimentValues df) ∧
      (∀ s ∈ top_10_sentiments df, ∀ t ∈ sentimentValues df,
        t ∉ top_10_sentiments df → sentimentCount df t ≤ sentimentCount df s) ∧
      ((top_10_sentiments df).map (fun s => sentimentCount df s)).sum ≤ df.length ∧
      (∀ r, r ∈ sentiment_filtered_df df ↔
        r ∈ df ∧ r.sentiment ∈ top_10_sentiments df) ∧
      (∀ s, s ∈ (sentiment_likes df).map Prod.fst ↔ s ∈ top_10_sentiments df) := by
  refine ⟨?_, top_10_length df, top_10_nodup df, top_10_subset df,
    top_10_high_freq df, ?_, ?_, mem_sentiment_likes_keys df⟩
  · rw [top_10_length df]
    exact min_le_left _ _
  · have hsum := sum_length_filter_key df (fun r => r.sentiment)
      (top_10_sentiments df) (top_10_nodup df)
    simp only [sentimentCount]
    rw [hsum]
    exact List.length_filter_le _ _
  · intro r
    unfold sentiment_filtered_df
    rw [List.mem_filter, decide_eq_true_eq]

/-- Witness for C4's inner implications at the eleven-sentiment fixture:
label S10 is dropped by the top-10 restriction and its frequency is at most
the kept label Joy's, and the aggregates range over the kept labels. -/
theorem top_10_sentiments_spec_witness :
    (top_10_sentiments dfTop).length ≤ 10 ∧
      sentimentCount dfTop (pystr "S10") ≤ sentimentCount dfTop (pystr "Joy") ∧
      (fxPost "X" (some "US") 2023 "Jan" 1 "Joy" 1 ∈ sentiment_filtered_df dfTop) ∧
      pystr "Joy" ∈ (sentiment_likes dfTop).map Prod.fst :=
  ⟨(top_10_sentiments_spec dfTop).1,
    (top_10_sentiments_spec dfTop).2.2.2.2.1 (pystr "Joy") (by decide)
      (pystr "S10") (by decide) (by decide),
    ((top_10_sentiments_spec dfTop).2.2.2.2.2.2.1 _).mpr (by decide),
    ((top_10_sentiments_spec dfTop).2.2.2.2.2.2.2 _).mpr (by decide)⟩

/-! ## Pivot table -/

theorem filter_comm_and {α : Type} (l : List α) (p q : α → Prop)
    [DecidablePred p] [DecidablePred q] :
    (l.filter (fun a => p a)).filter (fun a => q a) =
      l.filter (fun a => p a ∧ q a) := by
  induction l with
  | nil => rfl
  | cons a as ih =>
    by_cases hp : p a <;> by_cases hq : q a <;>
      simp [List.filter_cons, hp, hq, ih]

theorem mem_observedPairs (df : List Post) (p s : PyStr) :
    (p, s) ∈ observedPairs df ↔ ∃ r ∈ df, r.platform = p ∧ r.sentiment = s := by
  unfold observedPairs
  rw [List.mem_dedup, List.mem_map]
  constructor
  · rintro ⟨r, hr, heq⟩
    rcases Prod.mk.injEq .. ▸ heq with ⟨h1, h2⟩
    exact ⟨r, hr, h1, h2⟩
  · rintro ⟨r, hr, h1, h2⟩
    exact ⟨r, hr, by rw [h1, h2]⟩

theorem sentiment_platform_counts_eq (df : List Post) (p s : PyStr) :
    sentiment_platform_counts df p s = pairGroupCount df p s := by
  unfold sentiment_platform_counts pairCounts
  rw [tableGet?_map_self]
  by_cases h : (p, s) ∈ observedPairs df
  · rw [if_pos h]
    simp only [Option.getD]
    unfold pairGroupCount
    congr 1
    apply List.filter_congr
    intro a _
    simp [Prod.mk.injEq]
  · rw [if_neg h]
    simp only [Option.getD]
    unfold pairGroupCount
    have hno : ∀ r ∈ df, ¬(r.platform = p ∧ r.sentiment = s) := by
      intro r hr hand
      exact h ((mem_observedPairs df p s).mpr ⟨r, hr, hand⟩)
    have hnil : df.filter (fun r => r.platform = p ∧ r.sentiment = s) = [] := by
      rw [List.filter_eq_nil_iff]
      intro a ha
      simp [hno a ha]
    rw [hnil]
    rfl

/-- C5: every pivot cell equals the count of posts with exactly that
(platform, sentiment) pair — hence 0 for an unobserved pair — and the cells
over the observed platform and sentiment label sets sum to the row count. -/
theorem sentiment_platform_counts_spec (df : List Post) :
    (∀ p s, sentiment_platform_counts df p s = pairGroupCount df p s) ∧
      (∀ p s, (∀ r ∈ df, ¬(r.platform = p ∧ r.sentiment = s)) →
        sentiment_platform_counts df p s = 0) ∧
      ((platformValues df).map (fun p =>
        ((sentimentValues df).map
          (fun s => sentiment_platform_counts df p s)).sum)).sum = df.length := by
  refine ⟨sentiment_platform_counts_eq df, ?_, ?_⟩
  · intro p s hno
    rw [sentiment_platform_counts_eq df]
    unfold pairGroupCount
    have hnil : df.filter (fun r => r.platform = p ∧ r.sentiment = s) = [] := by
      rw [List.filter_eq_nil_iff]
      intro a ha
      simp [hno a ha]
    rw [hnil]
    rfl
  · have hin : ∀ p, ((sentimentValues df).map
        (fun s => sentiment_platform_counts df p s)).sum =
          (platformGroup df p).length := by
      intro p
      have h2 : ∀ s, (platformGroup df p).filter (fun r => r.sentiment = s) =
          df.filter (fun r => r.platform = p ∧ r.sentiment = s) := by
        intro s
        unfold platformGroup
        exact filter_comm_and df (fun r => r.platform = p) (fun r => r.sentiment = s)
      have hcov : ∀ r ∈ platformGroup df p, r.sentiment ∈ sentimentValues df := by
        intro r hr
        have hrdf := (List.mem_filter.mp hr).1
        unfold sentimentValues
        rw [List.mem_dedup]
        exact List.mem_map.mpr ⟨r, hrdf, rfl⟩
      calc ((sentimentValues df).map
          (fun s => sentiment_platform_counts df p s)).sum
          = ((sentimentValues df).map (fun s =>
              ((platformGroup df p).filter (fun r => r.sentiment = s)).length)).sum := by
            apply congrArg
            apply List.map_congr_left
            intro s _
            rw [sentiment_platform_counts_eq df, h2 s]
            rfl
        _ = (platformGroup df p).length :=
            sum_length_filter_key_total (platformGroup df p) (fun r => r.sentiment)
              (sentimentValues df) (List.nodup_dedup _) hcov
    have hcovP : ∀ r ∈ df, r.platform ∈ platformValues df := by
      intro r hr
      unfold platformValues
      rw [List.mem_dedup]
      exact List.mem_map.mpr ⟨r, hr, rfl⟩
    calc ((platformValues df).map (fun p =>
        ((sentimentValues df).map
          (fun s => sentiment_platform_counts df p s)).sum)).sum
        = ((platformValues df).map (fun p => (platformGroup df p).length)).sum := by
          apply congrArg
          exact List.map_congr_left (fun p _ => hin p)
      _ = df.length :=
          sum_length_filter_key_total df (fun r => r.platform)
            (platformValues df) (List.nodup_dedup _) hcovP

/-- Witness for C5's unobserved-pair implication at a concrete input. -/
theorem sentiment_platform_counts_spec_witness :
    sentiment_platform_counts dfDom (pystr "Y") (pystr "Joy") = 0 :=
  (sentiment_platform_counts_spec dfDom).2.1 (pystr "Y") (pystr "Joy") (by decide)

/-! ## Dominant sentiment (country matrix) -/

/-- C1 evidence: on dfDom — one country (US) with one Joy post and one Anger
post — line 127's idxmax runs over the columns including the Total_Posts
column appended on line 126, so Dominant_Sentiment is the literal column
label "Total_Posts", which is not a sentiment column at all; the argmax over
the sentiment columns alone (what the claim states, tie broken by first
column in sorted column order) is "Anger". -/
theorem dominant_sentiment_bug :
    dominant_sentiment dfDom (pystr "US") = some (pystr "Total_Posts") ∧
      dominant_sentiment_claimed dfDom (pystr "US") = some (pystr "Anger") ∧
      pystr "Total_Posts" ∉ csSentCols dfDom ∧
      total_posts dfDom (pystr "US") = 2 := by
  exact ⟨by decide, by decide, by decide, by decide⟩

/-! ## Word-frequency token stream -/

theorem isWsCode_lowerCode (n : Nat) : isWsCode (lowerCode n) = isWsCode n := by
  have h : isWsCode (lowerCode n) = true ↔ isWsCode n = true := by
    unfold lowerCode isWsCode
    split
    · rename_i h
      simp only [Bool.or_eq_true, beq_iff_eq]
      omega
    · exact Iff.rfl
  exact Bool.eq_iff_iff.mpr h

theorem pySplitAux_append_space (b a : PyStr) :
    ∀ acc : PyStr, pySplitAux acc (a ++ 32 :: b) = pySplitAux acc a ++ pySplit b := by
  induction a with
  | nil =>
    intro acc
    show pySplitAux acc (32 :: b) = pySplitAux acc [] ++ pySplit b
    simp only [pySplitAux]
    have hws : isWsCode 32 = true := by decide
    rw [if_pos hws]
    by_cases h : acc = [] <;> simp [h, pySplit]
  | cons c cs ih =>
    intro acc
    simp only [List.cons_append, pySplitAux]
    by_cases hc : isWsCode c
    · rw [if_pos hc, if_pos hc]
      by_cases h : acc = [] <;> simp [h, ih]
    · rw [if_neg hc, if_neg hc]
      exact ih (c :: acc)

theorem pySplitAux_words (l : PyStr) :
    ∀ acc, (∀ x ∈ acc, isWsCode x = false) →
      ∀ w ∈ pySplitAux acc l, w ≠ [] ∧ ∀ x ∈ w, isWsCode x = false := by
  induction l with
  | nil =>
    intro acc hacc w hw
    by_cases h : acc = []
    · simp [pySplitAux, h] at hw
    · simp only [pySplitAux, if_neg h, List.mem_singleton] at hw
      subst hw
      refine ⟨by simp [List.reverse_eq_nil_iff, h], ?_⟩
      intro x hx
      exact hacc x (List.mem_reverse.mp hx)
  | cons c cs ih =>
    intro acc hacc w hw
    simp only [pySplitAux] at hw
    by_cases hc : isWsCode c
    · rw [if_pos hc] at hw
      by_cases h0 : acc = []
      · rw [if_pos h0] at hw
        exact ih [] (by simp) w hw
      · rw [if_neg h0] at hw
        rcases List.mem_cons.mp hw with h | h
        · subst h
          refine ⟨by simp [List.reverse_eq_nil_iff, h0], ?_⟩
          intro x hx
          exact hacc x (List.mem_reverse.mp hx)
        · exact ih [] (by simp) w h
    · rw [if_neg hc] at hw
      refine ih (c :: acc) ?_ w hw
      intro x hx
      rcases List.mem_cons.mp hx with h | h
      · subst h
        simpa using hc
      · exact hacc x h

theorem pySplitAux_no_ws (l : PyStr) :
    ∀ acc, (∀ x ∈ l, isWsCode x = false) →
      pySplitAux acc l = if acc = [] ∧ l = [] then [] else [acc.reverse ++ l] := by
  induction l with
  | nil =>
    intro acc _
    by_cases h : acc = [] <;> simp [pySplitAux, h]
  | cons c cs ih =>
    intro acc hws
    have hc : isWsCode c = false := hws c (List.mem_cons_self _ _)
    simp only [pySplitAux]
    rw [if_neg (by simp [hc])]
    rw [ih (c :: acc) (fun x hx => hws x (List.mem_cons_of_mem _ hx))]
    simp [List.reverse_cons, List.append_assoc]

theorem pySplit_append_space (a b : PyStr) :
    pySplit (a ++ 32 :: b) = pySplit a ++ pySplit b :=
  pySplitAux_append_space b a []

theorem pySplit_joinSp (xs : List PyStr) :
    pySplit (joinSp xs) = (xs.map pySplit).flatten := by
  induction xs with
  | nil => rfl
  | cons x xs ih =>
    cases xs with
    | nil => simp [joinSp]
    | cons y ys =>
      show pySplit (x ++ 32 :: joinSp (y :: ys)) = _
      rw [pySplit_append_space, ih]
      simp

theorem flatten_map_pySplit (ws : List PyStr)
    (h : ∀ w ∈ ws, w ≠ [] ∧ ∀ x ∈ w, isWsCode x = false) :
    (ws.map pySplit).flatten = ws := by
  induction ws with
  | nil => rfl
  | cons w ws ih =>
    rcases h w (List.mem_cons_self _ _) with ⟨hne, hws⟩
    have hw1 : pySplit w = [w] := by
      unfold pySplit
      rw [pySplitAux_no_ws w [] hws]
      simp [hne]
    simp only [List.map_cons, List.flatten_cons, hw1]
    rw [ih (fun u hu => h u (List.mem_cons_of_mem _ hu))]
    rfl

theorem pySplit_preprocess (t : Option PyStr) :
    pySplit (preprocess_text t) =
      (pySplit (pyLower (pyStrOfCell t))).filter (fun w => 3 < w.length) := by
  unfold preprocess_text
  rw [pySplit_joinSp]
  apply flatten_map_pySplit
  intro w hw
  have hw1 : w ∈ pySplit (pyLower (pyStrOfCell t)) := (List.mem_filter.mp hw).1
  exact pySplitAux_words _ [] (by simp) w hw1

theorem pySplitAux_lower (l : PyStr) :
    ∀ acc, pySplitAux (pyLower acc) (pyLower l) = (pySplitAux acc l).map pyLower := by
  induction l with
  | nil =>
    intro acc
    show pySplitAux (pyLower acc) [] = _
    by_cases h : acc = []
    · simp [pySplitAux, h, pyLower]
    · have h2 : pyLower acc ≠ [] := by simp [pyLower, h]
      simp [pySplitAux, h, h2, pyLower, List.map_reverse]
  | cons c cs ih =>
    intro acc
    show pySplitAux (pyLower acc) (lowerCode c :: pyLower cs) = _
    simp only [pySplitAux, isWsCode_lowerCode]
    by_cases hc : isWsCode c
    · rw [if_pos hc, if_pos hc]
      by_cases h0 : acc = []
      · have h0' : pyLower acc = [] := by simp [pyLower, h0]
        have ihnil := ih []
        simp only [pyLower, List.map_nil] at ihnil
        simp [h0, h0', ihnil, pyLower]
      · have h0' : pyLower acc ≠ [] := by simp [pyLower, h0]
        have ihnil := ih []
        simp only [pyLower, List.map_nil] at ihnil
        simp [h0, h0', ihnil, pyLower, List.map_reverse]
    · rw [if_neg hc, if_neg hc]
      have := ih (c :: acc)
      simpa [pyLower] using this

theorem pySplit_pyLower (s : PyStr) :
    pySplit (pyLower s) = (pySplit s).map pyLower := by
  unfold pySplit
  have h := pySplitAux_lower s []
  simpa [pyLower] using h

/-- The token content of the string handed to the word-frequency view: the
whitespace tokens of all_text are, post by post, the lower-cased whitespace
tokens of the raw text longer than three characters. -/
theorem pySplit_all_text (df : List Post) :
    pySplit (all_text df) =
      (df.map (fun r =>
        ((pySplit (pyStrOfCell r.text)).map pyLower).filter
          (fun w => 3 < w.length))).flatten := by
  unfold all_text
  rw [pySplit_joinSp, List.map_map]
  apply congrArg
  apply List.map_congr_left
  intro r _
  show pySplit (preprocess_text r.text) = _
  rw [pySplit_preprocess, pySplit_pyLower]

/-- C8: the token stream of the string fed to the word-frequency view equals
the concatenation, over all posts, of the post text's whitespace tokens,
lower-cased, with every token of length at most 3 discarded and every longer
token kept. -/
theorem all_text_token_stream (df : List Post) :
    pySplit (all_text df) =
      (df.map (fun r =>
        ((pySplit (pyStrOfCell r.text)).map pyLower).filter
          (fun w => 3 < w.length))).flatten :=
  pySplit_all_text df

/-- C10: text preprocessing is total over missing cells — str() of a null
cell is the three-character string "nan", whose single token is discarded by
the length filter, so preprocessing a null text yields the empty string and
a null-text row contributes no tokens to the word-frequency stream. -/
theorem preprocess_text_null_total :
    pyStrOfCell none = pystr "nan" ∧
      (pystr "nan").length = 3 ∧
      preprocess_text none = [] ∧
      (∀ (r : Post) (df : List Post), r.text = none →
        pySplit (all_text (r :: df)) = pySplit (all_text df)) := by
  refine ⟨by decide, by decide, by decide, ?_⟩
  intro r df hr
  rw [pySplit_all_text, pySplit_all_text]
  simp only [List.map_cons, List.flatten_cons, hr]
  have h0 : ((pySplit (pyStrOfCell (none : Option PyStr))).map pyLower).filter
      (fun w => 3 < w.length) = [] := by decide
  rw [h0]
  rfl

/-- Witness for C10's null-text implication at a concrete row. -/
theorem preprocess_text_null_total_witness :
    pySplit (all_text (nullTextPost :: dfDom)) = pySplit (all_text dfDom) :=
  preprocess_text_null_total.2.2.2 nullTextPost dfDom rfl
